import Mathlib

/-!
Verification of the SteamDataAnalysis repository.

This file gives a shallow embedding of the two components with real logic:

* `CleanAndPlot` embeds `clean_and_plot.py` — the data-cleaning heuristic
  (`clean_game_data`) that truncates each game's leading low-signal months.
* `CsvToSqlite` embeds `csv_to_sqlite.py` — the month-label parser
  (`parse_month_year`) and the schema-level effect of the CSV import
  (`create_database_schema`, `import_csv_to_sqlite`, with pandas
  `to_sql(if_exists="replace")` modelled as drop-and-recreate).

Machine reals (pandas floats for `avg_players`) are modelled as `ℚ`; the only
operation ever performed on them is an order comparison, which is exact.
-/

namespace CleanAndPlot

/-- One row of the flat table (`appid, game_name, month, avg_players,
peak_players`), the record format produced by the scraper and consumed by
`clean_game_data`. -/
structure Obs where
  appid : Nat
  game_name : String
  month : String
  avg_players : ℚ
  peak_players : Nat
deriving DecidableEq, Repr

/-- The month-name table of the `"%B %Y"` date format. -/
def monthNames : List (String × Nat) :=
  [("January", 1), ("February", 2), ("March", 3), ("April", 4),
   ("May", 5), ("June", 6), ("July", 7), ("August", 8),
   ("September", 9), ("October", 10), ("November", 11), ("December", 12)]

/-- Look up a full month name (given as its character list). -/
def monthNumber (nm : List Char) : Option Nat :=
  (monthNames.find? (fun p => p.1.toList == nm)).map (fun p => p.2)

/-- Accumulate a decimal digit string into a number; `none` on any
non-digit character. -/
def digitsToNat : List Char → Nat → Option Nat
  | [], acc => some acc
  | c :: cs, acc =>
    if c.isDigit then digitsToNat cs (acc * 10 + (c.toNat - 48)) else none

/-- The `"%Y"` field: one or more decimal digits. -/
def yearToNat : List Char → Option Nat
  | [] => none
  | l => digitsToNat l 0

/-- Split a character list on single space characters, like
`String.splitOn " "`. -/
def splitOnSpaceAux : List Char → List Char → List (List Char)
  | [], acc => [acc.reverse]
  | c :: cs, acc =>
    if c = ' ' then acc.reverse :: splitOnSpaceAux cs []
    else splitOnSpaceAux cs (c :: acc)

/-- `pd.to_datetime(game_data["month"], format="%B %Y", errors="coerce")`
(clean_and_plot.py line 21): a full month name, one space, and a numeric year
parse to a `(year, month)` key; any other string coerces to NaT, modelled as
`none`. -/
def parseDateBY (s : String) : Option (Nat × Nat) :=
  match splitOnSpaceAux s.toList [] with
  | [mn, yr] =>
    match monthNumber mn, yearToNat yr with
    | some m, some y => some (y, m)
    | _, _ => none
  | _ => none

/-- The sort key of a row: its parsed `(year, month)` date, `none` for
NaT. -/
def dateKey (o : Obs) : Option (Nat × Nat) := parseDateBY o.month

/-- Order on parsed dates: lexicographic on `(year, month)`, with NaT
(`none`) after every real date. -/
def keyLe : Option (Nat × Nat) → Option (Nat × Nat) → Bool
  | some x, some y => decide (x.1 < y.1 ∨ (x.1 = y.1 ∧ x.2 ≤ y.2))
  | some _, none => true
  | none, some _ => false
  | none, none => true

/-- Comparison used to sort rows by the parsed date, with NaT (unparseable
labels) ordered after every real date, as pandas `sort_values` places NaT
last. -/
def dateLe (a b : Obs) : Bool := keyLe (dateKey a) (dateKey b)

/-- Stable insertion into a date-sorted list. -/
def insertByDate (x : Obs) : List Obs → List Obs
  | [] => [x]
  | y :: ys => if dateLe x y then x :: y :: ys else y :: insertByDate x ys

/-- `game_data.sort_values("date").reset_index(drop=True)`
(clean_and_plot.py line 22), modelled as a stable sort on the parsed date key
with unparseable dates last.  (The spec's §4.2 flags the behaviour on
duplicate dates as deliberately unpinned; a stable sort is the reading used
here.) -/
def sortByDate : List Obs → List Obs
  | [] => []
  | x :: xs => insertByDate x (sortByDate xs)

/-- The `avg_players` column of a list of rows. -/
def avgList (s : List Obs) : List ℚ := s.map (fun o => o.avg_players)

/-- The scanning loop of `clean_game_data` (clean_and_plot.py lines 25-35):
walk the sorted rows keeping a run-length counter of consecutive rows with
`avg_players >= min_avg_players`; the first time the counter reaches
`min_consecutive_months` return `max(0, idx - min_consecutive_months + 1)`
(truncated `Nat` subtraction implements the clamp) and stop; reset the
counter on a row below the threshold; return `none` if the walk ends. -/
def findMeaningfulStart (thr : ℚ) (m : Nat) : List ℚ → Nat → Nat → Option Nat
  | [], _, _ => none
  | v :: rest, idx, count =>
    if thr ≤ v then
      if m ≤ count + 1 then some (idx + 1 - m)
      else findMeaningfulStart thr m rest (idx + 1) (count + 1)
    else findMeaningfulStart thr m rest (idx + 1) 0

/-- Cleaning of one game's series (the body of the per-game loop of
`clean_game_data`, clean_and_plot.py lines 18-43): sort by date, scan for the
meaningful start, and keep the suffix from it; keep the whole sorted series
when no meaningful start is found. -/
def cleanSeries (thr : ℚ) (m : Nat) (s : List Obs) : List Obs :=
  let t := sortByDate s
  match findMeaningfulStart thr m (avgList t) 0 0 with
  | some cut => t.drop cut
  | none => t

/-- `df["game_name"].unique()`: distinct values in order of first
appearance. -/
def uniqAux : List String → List String → List String
  | [], _ => []
  | x :: xs, seen => if x ∈ seen then uniqAux xs seen else x :: uniqAux xs (x :: seen)

/-- The distinct `game_name` values of a table, in order of first
appearance. -/
def uniqueNames (df : List Obs) : List String :=
  uniqAux (df.map (fun o => o.game_name)) []

/-- `clean_game_data(df, min_avg_players, min_consecutive_months)`
(clean_and_plot.py lines 6-45): group the table by `game_name`, clean each
group as one series, and concatenate; an empty group list returns the input
table, as `pd.concat(cleaned_games) if cleaned_games else df` does. -/
def clean_game_data (df : List Obs) (thr : ℚ) (m : Nat) : List Obs :=
  let cleaned_games :=
    (uniqueNames df).map (fun u => cleanSeries thr m (df.filter (fun o => o.game_name == u)))
  if cleaned_games.isEmpty then df else cleaned_games.flatten

/-- A qualifying window ending at position `i` of the value list `l`, with
`count` qualifying values granted as credit immediately before `l`: position
`i` exists, the run ending at `i` together with the credit has length at
least `m`, and every position of `l` in the window qualifies. -/
def WindowAt (thr : ℚ) (m : Nat) (l : List ℚ) (count i : Nat) : Prop :=
  i < l.length ∧ m ≤ count + i + 1 ∧
    ∀ j < i + 1, i + 1 - m ≤ j → thr ≤ l.getD j 0

instance (thr : ℚ) (m : Nat) (l : List ℚ) (count i : Nat) :
    Decidable (WindowAt thr m l count i) := by
  unfold WindowAt; infer_instance

/-- A run of `m` consecutive qualifying values ending at position `i` of
`l`, with no credit from outside the list. -/
def QualWindow (thr : ℚ) (m : Nat) (l : List ℚ) (i : Nat) : Prop :=
  WindowAt thr m l 0 i

instance (thr : ℚ) (m : Nat) (l : List ℚ) (i : Nat) :
    Decidable (QualWindow thr m l i) := by
  unfold QualWindow; infer_instance

/-- `i` is the first position of `l` at which a qualifying run of length `m`
ends. -/
def FirstQualWindow (thr : ℚ) (m : Nat) (l : List ℚ) (i : Nat) : Prop :=
  QualWindow thr m l i ∧ ∀ k < i, ¬ QualWindow thr m l k

instance (thr : ℚ) (m : Nat) (l : List ℚ) (i : Nat) :
    Decidable (FirstQualWindow thr m l i) := by
  unfold FirstQualWindow; infer_instance


/-- The single-game series of §8 of the spec: `average_players` values
`[0, 0, 600, 700, 400, 800, 900, 900]` over consecutive months. -/
def ex2 : List Obs :=
  [⟨10, "ExampleGame", "January 2020", 0, 10⟩,
   ⟨10, "ExampleGame", "February 2020", 0, 12⟩,
   ⟨10, "ExampleGame", "March 2020", 600, 650⟩,
   ⟨10, "ExampleGame", "April 2020", 700, 750⟩,
   ⟨10, "ExampleGame", "May 2020", 400, 450⟩,
   ⟨10, "ExampleGame", "June 2020", 800, 850⟩,
   ⟨10, "ExampleGame", "July 2020", 900, 950⟩,
   ⟨10, "ExampleGame", "August 2020", 900, 990⟩]

/-- A series with one parseable below-threshold month followed by two rows
whose `month` labels do not parse but whose `avg_players` are above the
threshold. -/
def ex6 : List Obs :=
  [⟨1, "G", "January 2020", 0, 5⟩,
   ⟨1, "G", "mystery a", 600, 700⟩,
   ⟨1, "G", "mystery b", 700, 800⟩]

/-- Concrete series used to instantiate the C1 theorem. -/
def exC1 : List Obs :=
  [⟨2, "H", "March 2021", 100, 150⟩,
   ⟨2, "H", "April 2021", 800, 880⟩,
   ⟨2, "H", "May 2021", 900, 990⟩,
   ⟨2, "H", "June 2021", 50, 60⟩]

/-- Concrete series with every observation below the threshold, one of them
with an unparseable month label. -/
def exC3 : List Obs :=
  [⟨3, "K", "January 2022", 10, 20⟩,
   ⟨3, "K", "bad month", 20, 30⟩]

/-- Concrete series used to instantiate the idempotence theorem. -/
def exC4 : List Obs :=
  [⟨4, "L", "January 2020", 0, 0⟩,
   ⟨4, "L", "February 2020", 700, 750⟩,
   ⟨4, "L", "March 2020", 800, 850⟩,
   ⟨4, "L", "April 2020", 100, 120⟩]

/-- Concrete series on which the scan finds no cut point: an unparseable
below-threshold row and a parseable below-threshold row. -/
def exC6 : List Obs :=
  [⟨6, "M", "zz strange", 0, 0⟩,
   ⟨6, "M", "January 2021", 0, 0⟩]

end CleanAndPlot

namespace CsvToSqlite

/-- Python `int(...)` applied to a whitespace-free token, digit part:
decimal digits possibly separated by single underscores (a `_` must sit
between two digits); `acc` is the value of the digits already read.  Any
other character raises `ValueError`, modelled as `none`. -/
def digitsVal : List Char → Nat → Option Nat
  | [], acc => some acc
  | '_' :: c :: cs, acc =>
    if c.isDigit then digitsVal cs (acc * 10 + (c.toNat - 48)) else none
  | c :: cs, acc =>
    if c.isDigit then digitsVal cs (acc * 10 + (c.toNat - 48)) else none

/-- Python `int(...)` on a whitespace-free token: optional sign followed by
at least one digit, underscores allowed between digits; `none` models the
`ValueError` caught by `parse_month_year`'s bare `except`. -/
def pyInt (tok : List Char) : Option Int :=
  match tok with
  | '+' :: c :: cs =>
    if c.isDigit then (digitsVal cs (c.toNat - 48)).map (fun n => (n : Int))
    else none
  | '-' :: c :: cs =>
    if c.isDigit then (digitsVal cs (c.toNat - 48)).map (fun n => -(n : Int))
    else none
  | c :: cs =>
    if c.isDigit then (digitsVal cs (c.toNat - 48)).map (fun n => (n : Int))
    else none
  | [] => none

/-- Python `month_str.strip().split()`: split on runs of whitespace and drop
empty pieces (which also subsumes the leading `.strip()`). -/
def pySplitChars : List Char → List Char → List (List Char)
  | [], acc => if acc.isEmpty then [] else [acc.reverse]
  | c :: cs, acc =>
    if c.isWhitespace then
      if acc.isEmpty then pySplitChars cs [] else acc.reverse :: pySplitChars cs []
    else pySplitChars cs (c :: acc)

/-- Decides whether `pat` occurs as a contiguous substring, modelling
Python's `pat in month_str`. -/
def containsSub (pat : List Char) : List Char → Bool
  | [] => pat.isEmpty
  | c :: rest => pat.isPrefixOf (c :: rest) || containsSub pat rest

/-- The `month_mapping` dict of `parse_month_year` (csv_to_sqlite.py lines
51-55). -/
def month_mapping : List (String × Nat) :=
  [("January", 1), ("February", 2), ("March", 3), ("April", 4),
   ("May", 5), ("June", 6), ("July", 7), ("August", 8),
   ("September", 9), ("October", 10), ("November", 11), ("December", 12)]

/-- `month_mapping.get(month_name)` without the default (the month name is
given as its character list). -/
def monthLookup (nm : List Char) : Option Nat :=
  (month_mapping.find? (fun p => p.1.toList == nm)).map (fun p => p.2)

/-- `parse_month_year(month_str)` (csv_to_sqlite.py lines 43-66).
`datetime.now()` is supplied as the `(nowYear, nowMonth)` arguments.  The
Python `(None, None)` result is modelled as `none`.  Note line 61:
`month_mapping.get(month_name, 1)` defaults an unrecognized month name to
`1`. -/
def parse_month_year (nowYear : Int) (nowMonth : Nat) (month_str : String) :
    Option (Int × Nat) :=
  if containsSub "Last 30 Days".toList month_str.toList then
    some (nowYear, nowMonth)
  else
    match pySplitChars month_str.toList [] with
    | month_name :: yearTok :: _ =>
      match pyInt yearTok with
      | some year => some (year, (monthLookup month_name).getD 1)
      | none => none
    | _ => none

/-- One column of a SQLite table schema: name, declared type, and the
constraints used by `create_database_schema`. -/
structure Column where
  name : String
  declType : String
  notNull : Bool
  primaryKey : Bool
  autoincrement : Bool
  defaultNow : Bool
deriving DecidableEq, Repr

/-- A table schema: ordered columns plus
`FOREIGN KEY (local) REFERENCES table (col)` clauses. -/
structure TableSchema where
  columns : List Column
  foreignKeys : List (String × String × String)
deriving DecidableEq, Repr

/-- A named single-column index. -/
structure DbIndex where
  name : String
  tableName : String
  column : String
deriving DecidableEq, Repr

/-- The schema-level state of the SQLite database: tables by name, indexes,
and view names. -/
structure Database where
  tables : List (String × TableSchema)
  indexes : List DbIndex
  views : List String
deriving DecidableEq, Repr

/-- A fresh database file, as `sqlite3.connect` creates one. -/
def emptyDb : Database := ⟨[], [], []⟩

def hasTable (db : Database) (n : String) : Bool :=
  db.tables.any (fun t => t.1 == n)

def lookupTable (db : Database) (n : String) : Option TableSchema :=
  (db.tables.find? (fun t => t.1 == n)).map (fun t => t.2)

/-- `CREATE TABLE IF NOT EXISTS`. -/
def createTableIfNotExists (db : Database) (n : String) (t : TableSchema) :
    Database :=
  if hasTable db n then db else { db with tables := db.tables ++ [(n, t)] }

/-- `CREATE INDEX IF NOT EXISTS`. -/
def createIndexIfNotExists (db : Database) (ix : DbIndex) : Database :=
  if db.indexes.any (fun j => j.name == ix.name) then db
  else { db with indexes := db.indexes ++ [ix] }

/-- `CREATE VIEW IF NOT EXISTS`. -/
def createViewIfNotExists (db : Database) (v : String) : Database :=
  if db.views.any (fun w => w == v) then db
  else { db with views := db.views ++ [v] }

/-- SQLite `DROP TABLE`: removes the table and every index on it. -/
def dropTable (db : Database) (n : String) : Database :=
  { db with tables := db.tables.filter (fun t => t.1 != n),
            indexes := db.indexes.filter (fun ix => ix.tableName != n) }

/-- pandas `DataFrame.to_sql(name, conn, if_exists="replace", index=False)`:
drops any existing table of that name and recreates it from the frame alone,
with only the frame's columns and inferred storage types - no primary key,
no NOT NULL, no defaults, no foreign keys; dropping the old table also drops
its indexes. -/
def to_sql_replace (db : Database) (n : String) (cols : List (String × String)) :
    Database :=
  let db2 := dropTable db n
  { db2 with tables := db2.tables ++
      [(n, { columns := cols.map (fun c =>
               { name := c.1, declType := c.2, notNull := false,
                 primaryKey := false, autoincrement := false,
                 defaultNow := false }),
             foreignKeys := [] })] }

/-- The `games` DDL of `create_database_schema` (csv_to_sqlite.py lines
11-17). -/
def gamesDDL : TableSchema :=
  { columns :=
      [⟨"appid", "INTEGER", false, true, false, false⟩,
       ⟨"game_name", "TEXT", true, false, false, false⟩,
       ⟨"created_at", "TIMESTAMP", false, false, false, true⟩],
    foreignKeys := [] }

/-- The `player_history` DDL of `create_database_schema` (csv_to_sqlite.py
lines 20-32). -/
def player_historyDDL : TableSchema :=
  { columns :=
      [⟨"id", "INTEGER", false, true, true, false⟩,
       ⟨"appid", "INTEGER", false, false, false, false⟩,
       ⟨"month", "TEXT", true, false, false, false⟩,
       ⟨"avg_players", "REAL", true, false, false, false⟩,
       ⟨"peak_players", "INTEGER", true, false, false, false⟩,
       ⟨"year", "INTEGER", false, false, false, false⟩,
       ⟨"month_num", "INTEGER", false, false, false, false⟩,
       ⟨"created_at", "TIMESTAMP", false, false, false, true⟩],
    foreignKeys := [("appid", "games", "appid")] }

/-- `create_database_schema(conn)` (csv_to_sqlite.py lines 6-41): the two
DDL tables and the four indexes on `player_history`. -/
def create_database_schema (db : Database) : Database :=
  let db1 := createTableIfNotExists db "games" gamesDDL
  let db2 := createTableIfNotExists db1 "player_history" player_historyDDL
  let db3 := createIndexIfNotExists db2 ⟨"idx_appid", "player_history", "appid"⟩
  let db4 := createIndexIfNotExists db3 ⟨"idx_year", "player_history", "year"⟩
  let db5 := createIndexIfNotExists db4 ⟨"idx_month", "player_history", "month"⟩
  createIndexIfNotExists db5 ⟨"idx_avg_players", "player_history", "avg_players"⟩

/-- `create_summary_views(conn)` (csv_to_sqlite.py lines 116-171): three
`CREATE VIEW IF NOT EXISTS` statements. -/
def create_summary_views (db : Database) : Database :=
  let db1 := createViewIfNotExists db "latest_player_data"
  let db2 := createViewIfNotExists db1 "top_games_avg"
  createViewIfNotExists db2 "yearly_trends"

/-- The schema-level effect of a successful `import_csv_to_sqlite` run
(csv_to_sqlite.py lines 76-114): build the DDL schema, then
`to_sql(..., if_exists="replace")` for `games` with the frame columns
`appid, game_name` (lines 88-89) and for `player_history` with the frame
columns `appid, month, avg_players, peak_players, year, month_num`
(lines 101-107), then the summary views.  Row data is not tracked because no
schema effect depends on it. -/
def importedDatabase : Database :=
  let db1 := create_database_schema emptyDb
  let db2 := to_sql_replace db1 "games" [("appid", "INTEGER"), ("game_name", "TEXT")]
  let db3 := to_sql_replace db2 "player_history"
      [("appid", "INTEGER"), ("month", "TEXT"), ("avg_players", "REAL"),
       ("peak_players", "INTEGER"), ("year", "INTEGER"), ("month_num", "INTEGER")]
  create_summary_views db3

/-- Outcome of running a loader entry point, distinguishing a plain `return`
from the function (the caller continues running) from a call of `exit()`
(the process stops). -/
inductive LoaderOutcome where
  | fatalExit (msg : String)
  | earlyReturn (msg : String)
  | completed (db : Database)
deriving DecidableEq, Repr

/-- Whether an outcome is a process exit. -/
def isFatalExit : LoaderOutcome → Bool
  | .fatalExit _ => true
  | _ => false

/-- `import_csv_to_sqlite(csv_file, db_file)` (csv_to_sqlite.py lines
68-114): when the CSV file does not exist it prints a message and returns
from the function; otherwise it builds the database and returns normally. -/
def import_csv_to_sqlite (csvExists : Bool) (csv_file : String) : LoaderOutcome :=
  if csvExists then .completed importedDatabase
  else .earlyReturn ("❌ CSV file not found: " ++ csv_file)

/-- The startup guard of `__main__` (csv_to_sqlite.py lines 215-219): with
no Steam CSV files in the working directory it prints and calls `exit()`;
otherwise it proceeds (modelled as `none`). -/
def main_missing_csv_check (csv_files : List String) : Option LoaderOutcome :=
  if csv_files.isEmpty then
    some (.fatalExit "❌ No Steam CSV files found in current directory")
  else none

/-- The schema the spec states for the persisted store: the two DDL tables
and the four indexes on `player_history`. -/
def specSchemaOK (db : Database) : Prop :=
  lookupTable db "games" = some gamesDDL ∧
  lookupTable db "player_history" = some player_historyDDL ∧
  (⟨"idx_appid", "player_history", "appid"⟩ : DbIndex) ∈ db.indexes ∧
  (⟨"idx_year", "player_history", "year"⟩ : DbIndex) ∈ db.indexes ∧
  (⟨"idx_month", "player_history", "month"⟩ : DbIndex) ∈ db.indexes ∧
  (⟨"idx_avg_players", "player_history", "avg_players"⟩ : DbIndex) ∈ db.indexes

instance (db : Database) : Decidable (specSchemaOK db) := by
  unfold specSchemaOK; infer_instance

end CsvToSqlite

namespace CleanAndPlot

section SortLemmas

theorem insertByDate_perm (x : Obs) (l : List Obs) :
    (insertByDate x l).Perm (x :: l) := by
  induction l with
  | nil => exact List.Perm.refl _
  | cons y ys ih =>
    unfold insertByDate
    by_cases h : dateLe x y
    · simp [h]
    · simp only [if_neg h]
      exact ((List.perm_cons y).mpr ih).trans (List.Perm.swap x y ys)

theorem sortByDate_perm (s : List Obs) : (sortByDate s).Perm s := by
  induction s with
  | nil => exact List.Perm.refl _
  | cons x xs ih =>
    exact (insertByDate_perm x (sortByDate xs)).trans ((List.perm_cons x).mpr ih)

theorem length_sortByDate (s : List Obs) : (sortByDate s).length = s.length :=
  (sortByDate_perm s).length_eq

theorem mem_sortByDate {a : Obs} {s : List Obs} : a ∈ sortByDate s ↔ a ∈ s :=
  (sortByDate_perm s).mem_iff

theorem mem_insertByDate {a x : Obs} {l : List Obs} :
    a ∈ insertByDate x l ↔ a = x ∨ a ∈ l := by
  rw [(insertByDate_perm x l).mem_iff, List.mem_cons]

theorem keyLe_total (x y : Option (Nat × Nat)) :
    keyLe x y = true ∨ keyLe y x = true := by
  match x, y with
  | none, none => left; rfl
  | none, some _ => right; rfl
  | some _, none => left; rfl
  | some ⟨x1, x2⟩, some ⟨y1, y2⟩ =>
    simp only [keyLe, decide_eq_true_eq]
    omega

theorem keyLe_trans {x y z : Option (Nat × Nat)} (hxy : keyLe x y = true)
    (hyz : keyLe y z = true) : keyLe x z = true := by
  match x, y, z with
  | none, none, none => rfl
  | none, none, some _ => exact hyz
  | none, some _, _ => exact absurd hxy (by simp [keyLe])
  | some _, none, none => rfl
  | some _, none, some _ => exact absurd hyz (by simp [keyLe])
  | some _, some _, none => rfl
  | some ⟨x1, x2⟩, some ⟨y1, y2⟩, some ⟨z1, z2⟩ =>
    simp only [keyLe, decide_eq_true_eq] at *
    omega

theorem dateLe_total (a b : Obs) : dateLe a b = true ∨ dateLe b a = true :=
  keyLe_total (dateKey a) (dateKey b)

theorem dateLe_trans {a b c : Obs} (hab : dateLe a b = true)
    (hbc : dateLe b c = true) : dateLe a c = true :=
  keyLe_trans hab hbc

theorem insertByDate_sorted (x : Obs) {l : List Obs}
    (hl : l.Pairwise (fun a b => dateLe a b = true)) :
    (insertByDate x l).Pairwise (fun a b => dateLe a b = true) := by
  induction l with
  | nil => simp [insertByDate]
  | cons y ys ih =>
    rcases List.pairwise_cons.mp hl with ⟨hy, hys⟩
    unfold insertByDate
    by_cases h : dateLe x y
    · simp only [if_pos h]
      refine List.pairwise_cons.mpr ⟨?_, hl⟩
      intro z hz
      rcases List.mem_cons.mp hz with rfl | hz
      · exact h
      · exact dateLe_trans h (hy z hz)
    · simp only [if_neg h]
      refine List.pairwise_cons.mpr ⟨?_, ih hys⟩
      intro z hz
      rcases mem_insertByDate.mp hz with rfl | hz
      · rcases dateLe_total z y with h2 | h2
        · exact absurd h2 h
        · exact h2
      · exact hy z hz

theorem sortByDate_sorted (s : List Obs) :
    (sortByDate s).Pairwise (fun a b => dateLe a b = true) := by
  induction s with
  | nil => simp [sortByDate]
  | cons x xs ih => exact insertByDate_sorted x ih

theorem insertByDate_of_le (x : Obs) {l : List Obs}
    (h : ∀ z ∈ l, dateLe x z = true) : insertByDate x l = x :: l := by
  cases l with
  | nil => rfl
  | cons y ys => exact if_pos (h y (List.mem_cons_self y ys))

theorem sortByDate_eq_self_of_sorted {l : List Obs}
    (hl : l.Pairwise (fun a b => dateLe a b = true)) : sortByDate l = l := by
  induction l with
  | nil => rfl
  | cons x xs ih =>
    rcases List.pairwise_cons.mp hl with ⟨hx, hxs⟩
    unfold sortByDate
    rw [ih hxs]
    exact insertByDate_of_le x hx

theorem sortByDate_drop (s : List Obs) (c : Nat) :
    sortByDate ((sortByDate s).drop c) = (sortByDate s).drop c :=
  sortByDate_eq_self_of_sorted
    (List.Pairwise.sublist (List.drop_sublist c (sortByDate s))
      (sortByDate_sorted s))

end SortLemmas

section ScanLemmas

theorem getD_drop (l : List ℚ) (c j : Nat) :
    (l.drop c).getD j 0 = l.getD (c + j) 0 := by
  rw [List.getD_eq_getElem?_getD, List.getD_eq_getElem?_getD, List.getElem?_drop]

theorem windowAt_head {thr : ℚ} {m : Nat} {v : ℚ} {rest : List ℚ} {count : Nat}
    (hv : thr ≤ v) (hmc : m ≤ count + 1) : WindowAt thr m (v :: rest) count 0 := by
  refine ⟨by simp, by omega, ?_⟩
  intro j hj _
  interval_cases j
  exact hv

theorem windowAt_cons_qual {thr : ℚ} {m : Nat} {v : ℚ} {rest : List ℚ}
    {count i : Nat} (hv : thr ≤ v) (hw : WindowAt thr m rest (count + 1) i) :
    WindowAt thr m (v :: rest) count (i + 1) := by
  obtain ⟨h1, h2, h3⟩ := hw
  refine ⟨by simpa using Nat.succ_lt_succ h1, by omega, ?_⟩
  intro j hj hjm
  match j with
  | 0 => exact hv
  | q + 1 =>
    show thr ≤ rest.getD q 0
    exact h3 q (by omega) (by omega)

theorem windowAt_cons_far {thr : ℚ} {m : Nat} {v : ℚ} {rest : List ℚ}
    {count i : Nat} (hw : WindowAt thr m rest 0 i) :
    WindowAt thr m (v :: rest) count (i + 1) := by
  obtain ⟨h1, h2, h3⟩ := hw
  refine ⟨by simpa using Nat.succ_lt_succ h1, by omega, ?_⟩
  intro j hj hjm
  match j with
  | 0 => exact absurd hjm (by omega)
  | q + 1 =>
    show thr ≤ rest.getD q 0
    exact h3 q (by omega) (by omega)

theorem windowAt_of_cons_qual {thr : ℚ} {m : Nat} {v : ℚ} {rest : List ℚ}
    {count i : Nat} (hw : WindowAt thr m (v :: rest) count (i + 1)) :
    WindowAt thr m rest (count + 1) i := by
  obtain ⟨h1, h2, h3⟩ := hw
  refine ⟨by simpa using Nat.lt_of_succ_lt_succ h1, by omega, ?_⟩
  intro q hq hqm
  have := h3 (q + 1) (by omega) (by omega)
  simpa using this

theorem windowAt_of_cons_notqual {thr : ℚ} {m : Nat} {v : ℚ} {rest : List ℚ}
    {count i : Nat} (hv : ¬ thr ≤ v) (hw : WindowAt thr m (v :: rest) count (i + 1)) :
    WindowAt thr m rest 0 i := by
  obtain ⟨h1, h2, h3⟩ := hw
  have hmi : m ≤ i + 1 := by
    by_contra hmi
    exact hv (by simpa using h3 0 (by omega) (by omega))
  refine ⟨by simpa using Nat.lt_of_succ_lt_succ h1, by omega, ?_⟩
  intro q hq hqm
  have := h3 (q + 1) (by omega) (by omega)
  simpa using this

theorem not_windowAt_zero_notqual {thr : ℚ} {m : Nat} {v : ℚ} {rest : List ℚ}
    {count : Nat} (hv : ¬ thr ≤ v) (hm : 1 ≤ m) :
    ¬ WindowAt thr m (v :: rest) count 0 := by
  intro hw
  exact hv (by simpa using hw.2.2 0 (by omega) (by omega))

theorem scan_none_of_no_window (thr : ℚ) (m : Nat) :
    ∀ (l : List ℚ) (idx count : Nat), (∀ i, ¬ WindowAt thr m l count i) →
      findMeaningfulStart thr m l idx count = none := by
  intro l
  induction l with
  | nil => intro idx count _; rfl
  | cons v rest ih =>
    intro idx count h
    unfold findMeaningfulStart
    by_cases hv : thr ≤ v
    · simp only [if_pos hv]
      by_cases hmc : m ≤ count + 1
      · exact absurd (windowAt_head hv hmc) (h 0)
      · simp only [if_neg hmc]
        exact ih (idx + 1) (count + 1)
          (fun i hw => h (i + 1) (windowAt_cons_qual hv hw))
    · simp only [if_neg hv]
      exact ih (idx + 1) 0 (fun i hw => h (i + 1) (windowAt_cons_far hw))

theorem scan_some_of_first (thr : ℚ) (m : Nat) (hm : 1 ≤ m) :
    ∀ (l : List ℚ) (idx count i : Nat), count ≤ idx →
      WindowAt thr m l count i → (∀ k < i, ¬ WindowAt thr m l count k) →
      findMeaningfulStart thr m l idx count = some (idx + i + 1 - m) := by
  intro l
  induction l with
  | nil =>
    intro idx count i _ hw _
    exact absurd hw.1 (by simp)
  | cons v rest ih =>
    intro idx count i hci hw hmin
    unfold findMeaningfulStart
    by_cases hv : thr ≤ v
    · simp only [if_pos hv]
      by_cases hmc : m ≤ count + 1
      · simp only [if_pos hmc]
        have hi0 : i = 0 := by
          by_contra hne
          exact hmin 0 (Nat.pos_of_ne_zero hne) (windowAt_head hv hmc)
        subst hi0
        rfl
      · simp only [if_neg hmc]
        obtain ⟨i', rfl⟩ : ∃ i', i = i' + 1 := by
          cases i with
          | zero => exact absurd hw.2.1 (by omega)
          | succ n => exact ⟨n, rfl⟩
        have hres := ih (idx + 1) (count + 1) i' (by omega)
          (windowAt_of_cons_qual hw)
          (fun k hk hwk => hmin (k + 1) (by omega) (windowAt_cons_qual hv hwk))
        rw [hres]
        congr 1
        omega
    · simp only [if_neg hv]
      obtain ⟨i', rfl⟩ : ∃ i', i = i' + 1 := by
        cases i with
        | zero => exact absurd hw (not_windowAt_zero_notqual hv hm)
        | succ n => exact ⟨n, rfl⟩
      have hres := ih (idx + 1) 0 i' (by omega)
        (windowAt_of_cons_notqual hv hw)
        (fun k hk hwk => hmin (k + 1) (by omega) (windowAt_cons_far hwk))
      rw [hres]
      congr 1
      omega

theorem first_window_of_scan_some {thr : ℚ} {m : Nat} (hm : 1 ≤ m)
    {l : List ℚ} {c : Nat} (h : findMeaningfulStart thr m l 0 0 = some c) :
    ∃ i, FirstQualWindow thr m l i ∧ c = i + 1 - m := by
  by_cases hex : ∃ i, QualWindow thr m l i
  · have hq : QualWindow thr m l (Nat.find hex) := Nat.find_spec hex
    have hmin : ∀ k < Nat.find hex, ¬ QualWindow thr m l k :=
      fun k hk => Nat.find_min hex hk
    have hres := scan_some_of_first thr m hm l 0 0 (Nat.find hex)
      (Nat.le_refl 0) hq hmin
    rw [h] at hres
    refine ⟨Nat.find hex, ⟨hq, hmin⟩, ?_⟩
    have := Option.some.inj hres
    omega
  · push_neg at hex
    have hres := scan_none_of_no_window thr m l 0 0 hex
    rw [h] at hres
    exact absurd hres (by simp)

end ScanLemmas

end CleanAndPlot

namespace CleanAndPlot

section CleanerClaims

/-- C1: for every Series, after the chronological sort the Cleaner scans in
order keeping a run-length counter of consecutive observations with
`avg_players ≥ thr` (resetting on any observation below the threshold); the
first time the counter reaches `m` — i.e. at the first position `i` at which
a qualifying run of length `m` ends — the cut index is
`max(0, i - m + 1)` (`i + 1 - m` in truncated subtraction), scanning stops,
and the output is exactly the sorted Series from the cut index to the
end. -/
theorem c1_cut_at_first_qualifying_run (s : List Obs) (thr : ℚ) (m : Nat)
    (hm : 1 ≤ m) (i : Nat)
    (hfirst : FirstQualWindow thr m (avgList (sortByDate s)) i) :
    cleanSeries thr m s = (sortByDate s).drop (i + 1 - m) := by
  have hscan := scan_some_of_first thr m hm (avgList (sortByDate s)) 0 0 i
    (Nat.le_refl 0) hfirst.1 hfirst.2
  rw [show 0 + i + 1 - m = i + 1 - m by omega] at hscan
  simp only [cleanSeries, hscan]

/-- Witness for C1 at a concrete series: the first qualifying 2-run of
`exC1` ends at sorted position 2, so the cut index is 1. -/
theorem c1_cut_at_first_qualifying_run_witness :
    cleanSeries 500 2 exC1 = (sortByDate exC1).drop 1 := by
  have h := c1_cut_at_first_qualifying_run exC1 500 2 (by decide) 2 (by decide)
  exact h

/-- C2: on the single-game chronological series with `avg_players`
`[0, 0, 600, 700, 400, 800, 900, 900]`, cleaning with threshold 500 and
run length 2 returns exactly the suffix from index 2. -/
theorem c2_example_series :
    sortByDate ex2 = ex2 ∧
    cleanSeries 500 2 ex2 = ex2.drop 2 ∧
    clean_game_data ex2 500 2 = ex2.drop 2 ∧
    avgList (ex2.drop 2) = [600, 700, 400, 800, 900, 900] := by
  refine ⟨by decide, by decide, by decide, by decide⟩

/-- C3: when no qualifying run of length `m` exists in the sorted values the
Cleaner returns the full chronologically sorted Series unchanged; in
particular this holds whenever every observation is below the threshold. -/
theorem c3_no_run_keeps_whole_series (thr : ℚ) (m : Nat) (s : List Obs) :
    ((∀ i < (avgList (sortByDate s)).length,
        ¬ QualWindow thr m (avgList (sortByDate s)) i) →
      cleanSeries thr m s = sortByDate s) ∧
    (1 ≤ m → (∀ o ∈ s, o.avg_players < thr) →
      cleanSeries thr m s = sortByDate s) := by
  have base : (∀ i < (avgList (sortByDate s)).length,
      ¬ QualWindow thr m (avgList (sortByDate s)) i) →
      cleanSeries thr m s = sortByDate s := by
    intro h
    have hall : ∀ i, ¬ WindowAt thr m (avgList (sortByDate s)) 0 i := by
      intro i hq
      by_cases hi : i < (avgList (sortByDate s)).length
      · exact h i hi hq
      · exact hi hq.1
    have hscan := scan_none_of_no_window thr m (avgList (sortByDate s)) 0 0 hall
    simp only [cleanSeries, hscan]
  refine ⟨fun h => base h, ?_⟩
  intro hm hbelow
  apply base
  intro i hi hq
  obtain ⟨hlen, -, hq3⟩ := hq
  have hqi := hq3 i (by omega) (by omega)
  simp only [avgList] at hqi hlen
  rw [List.getD_eq_getElem _ _ hlen, List.getElem_map] at hqi
  have hlen2 : i < (sortByDate s).length := by simpa using hlen
  have hmem : (sortByDate s)[i] ∈ s := mem_sortByDate.mp (List.getElem_mem hlen2)
  exact absurd hqi (not_le.mpr (hbelow _ hmem))

/-- Witness for C3 at a concrete series whose observations are all below the
threshold (one of them with an unparseable month label). -/
theorem c3_no_run_keeps_whole_series_witness :
    cleanSeries 500 2 exC3 = sortByDate exC3 ∧
    cleanSeries 500 2 exC3 = sortByDate exC3 := by
  have h := c3_no_run_keeps_whole_series 500 2 exC3
  exact ⟨h.1 (by decide), h.2 (by decide) (by decide)⟩

/-- C4: cleaning is idempotent — cleaning an already-cleaned Series with the
same parameters returns it unchanged (the first qualifying run of the
cleaned series ends at position `m - 1`, so the recomputed cut index is
0). -/
theorem c4_idempotent (s : List Obs) (thr : ℚ) (m : Nat) (hm : 1 ≤ m) :
    cleanSeries thr m (cleanSeries thr m s) = cleanSeries thr m s := by
  cases hscan : findMeaningfulStart thr m (avgList (sortByDate s)) 0 0 with
  | none =>
    have h1 : cleanSeries thr m s = sortByDate s := by
      simp only [cleanSeries, hscan]
    have h2 : sortByDate (sortByDate s) = sortByDate s :=
      sortByDate_eq_self_of_sorted (sortByDate_sorted s)
    rw [h1]
    simp only [cleanSeries, h2, hscan]
  | some c =>
    have h1 : cleanSeries thr m s = (sortByDate s).drop c := by
      simp only [cleanSeries, hscan]
    obtain ⟨i, ⟨hq, hmin⟩, hc⟩ := first_window_of_scan_some hm hscan
    obtain ⟨hlen1, hm2, hq3⟩ := hq
    subst hc
    have hsorted : sortByDate ((sortByDate s).drop (i + 1 - m))
        = (sortByDate s).drop (i + 1 - m) := sortByDate_drop s (i + 1 - m)
    have havg : avgList ((sortByDate s).drop (i + 1 - m))
        = (avgList (sortByDate s)).drop (i + 1 - m) := by
      simp [avgList, List.map_drop]
    have hwin : WindowAt thr m ((avgList (sortByDate s)).drop (i + 1 - m)) 0 (m - 1) := by
      refine ⟨?_, by omega, ?_⟩
      · rw [List.length_drop]; omega
      · intro j hj hjm
        rw [getD_drop]
        exact hq3 (i + 1 - m + j) (by omega) (by omega)
    have hscan2 : findMeaningfulStart thr m
        ((avgList (sortByDate s)).drop (i + 1 - m)) 0 0 = some 0 := by
      have hres := scan_some_of_first thr m hm _ 0 0 (m - 1) (Nat.le_refl 0) hwin
        (fun k hk hw => absurd hw.2.1 (by omega))
      rw [hres]
      congr 1
      omega
    rw [h1]
    simp only [cleanSeries, hsorted, havg, hscan2, List.drop_zero]

/-- Witness for C4 at a concrete series that does get truncated. -/
theorem c4_idempotent_witness :
    cleanSeries 500 2 (cleanSeries 500 2 exC4) = cleanSeries 500 2 exC4 :=
  c4_idempotent exC4 500 2 (by decide)

/-- C5: the cleaned series is never longer than the input Series. -/
theorem c5_output_no_longer (s : List Obs) (thr : ℚ) (m : Nat) :
    (cleanSeries thr m s).length ≤ s.length := by
  have hlen : (sortByDate s).length = s.length := length_sortByDate s
  cases hscan : findMeaningfulStart thr m (avgList (sortByDate s)) 0 0 with
  | none => simp only [cleanSeries, hscan]; omega
  | some c => simp only [cleanSeries, hscan, List.length_drop]; omega

end CleanerClaims

end CleanAndPlot

namespace CleanAndPlot

section UnparseableDates

/-- C6 counterexample: in `ex6` the two rows with unparseable month labels
sort to the end, yet their above-threshold `avg_players` values drive the
run-length counter to the cut threshold, so the Cleaner cuts the series.
Under the claim (unparseable rows never increment the counter) no cut point
would exist and the output would be the whole sorted series; it is not. -/
theorem c6_counterexample :
    parseDateBY "mystery a" = none ∧
    parseDateBY "mystery b" = none ∧
    sortByDate ex6 = ex6 ∧
    cleanSeries 500 2 ex6 = ex6.drop 1 ∧
    cleanSeries 500 2 ex6 ≠ sortByDate ex6 := by
  refine ⟨by decide, by decide, by decide, by decide, by decide⟩

/-- C6 as amended: observations whose `month_label` fails to parse are
sorted to the end of the Series; they take part in the threshold scan like
every other observation (the scan reads only the `avg_players` column of the
sorted rows); and when no cut point is found the output retains every
observation of the input. -/
theorem c6_unparseable_sorted_last_scanned_retained (thr : ℚ) (m : Nat)
    (s : List Obs) :
    ((sortByDate s).Pairwise (fun a b =>
        parseDateBY a.month = none → parseDateBY b.month = none)) ∧
    (findMeaningfulStart thr m (avgList (sortByDate s)) 0 0 = none →
      cleanSeries thr m s = sortByDate s ∧ (cleanSeries thr m s).Perm s) := by
  constructor
  · refine (sortByDate_sorted s).imp ?_
    intro a b hab hna
    unfold dateLe dateKey at hab
    rw [hna] at hab
    cases hkb : parseDateBY b.month with
    | none => rfl
    | some y => rw [hkb] at hab; exact absurd hab (by simp [keyLe])
  · intro h
    have he : cleanSeries thr m s = sortByDate s := by
      simp only [cleanSeries, h]
    exact ⟨he, he ▸ sortByDate_perm s⟩

/-- Witness for the amended C6 at a concrete series (one unparseable row,
scan finds no cut point). -/
theorem c6_unparseable_sorted_last_scanned_retained_witness :
    ((sortByDate exC6).Pairwise (fun a b =>
        parseDateBY a.month = none → parseDateBY b.month = none)) ∧
    (cleanSeries 500 3 exC6 = sortByDate exC6 ∧
      (cleanSeries 500 3 exC6).Perm exC6) := by
  have h := c6_unparseable_sorted_last_scanned_retained 500 3 exC6
  exact ⟨h.1, h.2 (by decide)⟩

end UnparseableDates

section GroupingClaims

theorem mem_cleanSeries {o : Obs} {thr : ℚ} {m : Nat} {s : List Obs}
    (h : o ∈ cleanSeries thr m s) : o ∈ s := by
  cases hscan : findMeaningfulStart thr m (avgList (sortByDate s)) 0 0 with
  | none =>
    simp only [cleanSeries, hscan] at h
    exact mem_sortByDate.mp h
  | some c =>
    simp only [cleanSeries, hscan] at h
    exact mem_sortByDate.mp (List.mem_of_mem_drop h)

theorem mem_of_mem_uniqAux :
    ∀ {xs seen : List String} {y : String}, y ∈ uniqAux xs seen → y ∈ xs := by
  intro xs
  induction xs with
  | nil => intro seen y h; exact absurd h (by simp [uniqAux])
  | cons x xs ih =>
    intro seen y h
    unfold uniqAux at h
    by_cases hx : x ∈ seen
    · rw [if_pos hx] at h
      exact List.mem_cons_of_mem x (ih h)
    · rw [if_neg hx] at h
      rcases List.mem_cons.mp h with rfl | h2
      · exact List.mem_cons_self _ _
      · exact List.mem_cons_of_mem x (ih h2)

theorem not_mem_seen_of_mem_uniqAux :
    ∀ {xs seen : List String} {y : String}, y ∈ uniqAux xs seen → y ∉ seen := by
  intro xs
  induction xs with
  | nil => intro seen y h; exact absurd h (by simp [uniqAux])
  | cons x xs ih =>
    intro seen y h
    unfold uniqAux at h
    by_cases hx : x ∈ seen
    · rw [if_pos hx] at h
      exact ih h
    · rw [if_neg hx] at h
      rcases List.mem_cons.mp h with rfl | h2
      · exact hx
      · intro hy
        exact ih h2 (List.mem_cons_of_mem x hy)

theorem mem_uniqAux_of_mem :
    ∀ {xs seen : List String} {y : String}, y ∈ xs → y ∉ seen →
      y ∈ uniqAux xs seen := by
  intro xs
  induction xs with
  | nil => intro seen y h; exact absurd h (by simp)
  | cons x xs ih =>
    intro seen y h hseen
    unfold uniqAux
    by_cases hyx : y = x
    · subst hyx
      rw [if_neg hseen]
      exact List.mem_cons_self _ _
    · have h2 : y ∈ xs := by
        rcases List.mem_cons.mp h with h1 | h1
        · exact absurd h1 hyx
        · exact h1
      by_cases hx : x ∈ seen
      · rw [if_pos hx]
        exact ih h2 hseen
      · rw [if_neg hx]
        refine List.mem_cons_of_mem x (ih h2 ?_)
        intro hy
        rcases List.mem_cons.mp hy with h1 | h1
        · exact hyx h1
        · exact hseen h1

theorem nodup_uniqAux : ∀ (xs seen : List String), (uniqAux xs seen).Nodup := by
  intro xs
  induction xs with
  | nil => intro seen; simp [uniqAux]
  | cons x xs ih =>
    intro seen
    unfold uniqAux
    by_cases hx : x ∈ seen
    · rw [if_pos hx]
      exact ih seen
    · rw [if_neg hx]
      refine List.nodup_cons.mpr ⟨?_, ih (x :: seen)⟩
      intro hmem
      exact not_mem_seen_of_mem_uniqAux hmem (List.mem_cons_self _ _)

theorem nodup_uniqueNames (df : List Obs) : (uniqueNames df).Nodup :=
  nodup_uniqAux _ _

theorem game_name_mem_uniqueNames {o : Obs} {df : List Obs} (h : o ∈ df) :
    o.game_name ∈ uniqueNames df :=
  mem_uniqAux_of_mem (List.mem_map_of_mem _ h) (List.not_mem_nil _)

theorem eq_nil_of_uniqueNames_nil {df : List Obs} (h : uniqueNames df = []) :
    df = [] := by
  cases df with
  | nil => rfl
  | cons o os =>
    unfold uniqueNames at h
    simp only [List.map_cons] at h
    unfold uniqAux at h
    rw [if_neg (List.not_mem_nil _)] at h
    exact absurd h (by simp)

theorem flatten_map_eq_flatMap {α β : Type} (f : α → List β) (l : List α) :
    (l.map f).flatten = l.flatMap f := by
  induction l with
  | nil => rfl
  | cons x xs ih => simp [List.flatMap_cons, ih]

theorem clean_game_data_eq_flatMap (df : List Obs) (thr : ℚ) (m : Nat) :
    clean_game_data df thr m =
      (uniqueNames df).flatMap
        (fun u => cleanSeries thr m (df.filter (fun o => o.game_name == u))) := by
  simp only [clean_game_data]
  by_cases h : ((uniqueNames df).map
      (fun u => cleanSeries thr m (df.filter (fun o => o.game_name == u)))).isEmpty
  · rw [if_pos h]
    have hnames : uniqueNames df = [] :=
      List.map_eq_nil_iff.mp (List.isEmpty_iff.mp h)
    rw [eq_nil_of_uniqueNames_nil hnames]
    rfl
  · rw [if_neg h]
    exact flatten_map_eq_flatMap _ _

theorem filter_cleanSeries_self (thr : ℚ) (m : Nat) (df : List Obs) (n : String) :
    (cleanSeries thr m (df.filter (fun o => o.game_name == n))).filter
        (fun o => o.game_name == n)
      = cleanSeries thr m (df.filter (fun o => o.game_name == n)) := by
  apply List.filter_eq_self.mpr
  intro o ho
  exact (List.mem_filter.mp (mem_cleanSeries ho)).2

theorem filter_cleanSeries_ne (thr : ℚ) (m : Nat) (df : List Obs)
    {u n : String} (hun : u ≠ n) :
    (cleanSeries thr m (df.filter (fun o => o.game_name == u))).filter
        (fun o => o.game_name == n) = [] := by
  apply List.filter_eq_nil_iff.mpr
  intro o ho h
  have h1 : o.game_name = u :=
    eq_of_beq (List.mem_filter.mp (mem_cleanSeries ho)).2
  have h2 : o.game_name = n := eq_of_beq h
  exact hun (h1.symm.trans h2)

theorem filter_flatMap_names (df : List Obs) (thr : ℚ) (m : Nat) (n : String) :
    ∀ us : List String, us.Nodup →
      ((us.flatMap
          (fun u => cleanSeries thr m (df.filter (fun o => o.game_name == u)))).filter
            (fun o => o.game_name == n))
        = if n ∈ us then cleanSeries thr m (df.filter (fun o => o.game_name == n))
          else [] := by
  intro us
  induction us with
  | nil => intro _; simp
  | cons u us ih =>
    intro hnd
    rcases List.nodup_cons.mp hnd with ⟨hu, hnd2⟩
    rw [List.flatMap_cons, List.filter_append, ih hnd2]
    by_cases hun : u = n
    · subst hun
      rw [filter_cleanSeries_self, if_neg hu, if_pos (List.mem_cons_self _ _)]
      simp
    · rw [filter_cleanSeries_ne thr m df hun]
      simp only [List.nil_append]
      by_cases hn : n ∈ us
      · rw [if_pos hn, if_pos (List.mem_cons_of_mem _ hn)]
      · rw [if_neg hn, if_neg ?_]
        intro h
        rcases List.mem_cons.mp h with h1 | h2
        · exact hun h1.symm
        · exact hn h2

/-- C10: the Cleaner partitions the table by `game_name`, not by `appid`:
for every table, the rows of the output carrying a given `game_name` are
exactly the result of cleaning all input rows with that `game_name` —
whatever their `appid`s — merged, sorted and cut as one single series. -/
theorem c10_groups_by_game_name (df : List Obs) (thr : ℚ) (m : Nat)
    (n : String) :
    (clean_game_data df thr m).filter (fun o => o.game_name == n)
      = cleanSeries thr m (df.filter (fun o => o.game_name == n)) := by
  rw [clean_game_data_eq_flatMap,
    filter_flatMap_names df thr m n (uniqueNames df) (nodup_uniqueNames df)]
  by_cases hn : n ∈ uniqueNames df
  · rw [if_pos hn]
  · rw [if_neg hn]
    have hfil : df.filter (fun o => o.game_name == n) = [] := by
      apply List.filter_eq_nil_iff.mpr
      intro o ho h
      exact hn (eq_of_beq h ▸ game_name_mem_uniqueNames ho)
    rw [hfil]
    rfl

end GroupingClaims

end CleanAndPlot

namespace CsvToSqlite

section LoaderClaims

/-- C7 counterexample: `"Foo 2025"` is neither a recognized
month-name-plus-year (`Foo` is not in the month table) nor a rolling-30-days
label, yet `parse_month_year` maps it to `(2025, 1)` rather than to null
derived fields, because `month_mapping.get(month_name, 1)` defaults an
unrecognized month name to `1`. -/
theorem c7_counterexample :
    parse_month_year 2026 1 "Foo 2025" = some (2025, 1) ∧
    monthLookup "Foo".toList = none ∧
    containsSub "Last 30 Days".toList "Foo 2025".toList = false ∧
    parse_month_year 2026 1 "Foo 2025" ≠ none := by
  refine ⟨by decide, by decide, by decide, by decide⟩

/-- C7 as amended: the parser maps `"July 2025"` to `(2025, 7)`; any label
containing `"Last 30 Days"` to the current `(year, month)`; any other label
with at least two whitespace-separated tokens whose second token parses as a
Python integer to `(that integer, month-table lookup of the first token,
defaulting to 1)`; and exactly the remaining labels (fewer than two tokens,
or a second token that is not an integer) to null derived fields. -/
theorem c7_month_label_parsing (y : Int) (mo : Nat) :
    (parse_month_year y mo "July 2025" = some (2025, 7)) ∧
    (∀ s : String, containsSub "Last 30 Days".toList s.toList = true →
      parse_month_year y mo s = some (y, mo)) ∧
    (∀ (s : String) (nm yt : List Char) (rest : List (List Char)),
      containsSub "Last 30 Days".toList s.toList = false →
      pySplitChars s.toList [] = nm :: yt :: rest →
      parse_month_year y mo s =
        match pyInt yt with
        | some yearVal => some (yearVal, (monthLookup nm).getD 1)
        | none => none) ∧
    (∀ s : String, containsSub "Last 30 Days".toList s.toList = false →
      (pySplitChars s.toList []).length < 2 →
      parse_month_year y mo s = none) := by
  refine ⟨?_, ?_, ?_, ?_⟩
  · unfold parse_month_year
    rw [show containsSub "Last 30 Days".toList "July 2025".toList = false from
      by decide, if_neg (by simp)]
    rfl
  · intro s h
    unfold parse_month_year
    rw [h]
    rfl
  · intro s nm yt rest hcon hsplit
    unfold parse_month_year
    rw [hcon, if_neg (by simp), hsplit]
  · intro s hcon hlen
    unfold parse_month_year
    rw [hcon, if_neg (by simp)]
    cases hl : pySplitChars s.toList [] with
    | nil => rfl
    | cons a t =>
      cases t with
      | nil => rfl
      | cons b t2 =>
        rw [hl] at hlen
        simp at hlen
        omega

/-- Witness for the amended C7 at concrete labels of each kind. -/
theorem c7_month_label_parsing_witness :
    parse_month_year 3 4 "July 2025" = some (2025, 7) ∧
    parse_month_year 3 4 "xxLast 30 Daysyy" = some (3, 4) ∧
    parse_month_year 3 4 "Foo 2025" = some (2025, 1) ∧
    parse_month_year 3 4 "JustOne" = none := by
  have h := c7_month_label_parsing 3 4
  refine ⟨h.1, h.2.1 "xxLast 30 Daysyy" (by decide), ?_, ?_⟩
  · exact (h.2.2.1 "Foo 2025" "Foo".toList "2025".toList [] (by decide)
      (by decide)).trans (by decide)
  · exact h.2.2.2 "JustOne" (by decide) (by decide)

/-- C8 counterexample: on a missing CSV file `import_csv_to_sqlite` prints
its user-facing message and returns from the function; it does not exit the
process, so the caller keeps running. -/
theorem c8_counterexample :
    import_csv_to_sqlite false "steam_top100_with_names.csv"
      = LoaderOutcome.earlyReturn
          "❌ CSV file not found: steam_top100_with_names.csv" ∧
    isFatalExit (import_csv_to_sqlite false "steam_top100_with_names.csv")
      = false := by
  refine ⟨by decide, by decide⟩

/-- C8 as amended: a missing input CSV makes the import emit a user-facing
message and return early, with no processing of the missing input; the
process does not exit from within the import.  By contrast, the startup
directory scan that finds no CSV files at all does call `exit()`. -/
theorem c8_missing_csv_returns_early (csv_file : String) :
    import_csv_to_sqlite false csv_file
      = LoaderOutcome.earlyReturn ("❌ CSV file not found: " ++ csv_file) ∧
    isFatalExit (import_csv_to_sqlite false csv_file) = false ∧
    main_missing_csv_check []
      = some (LoaderOutcome.fatalExit
          "❌ No Steam CSV files found in current directory") := by
  exact ⟨rfl, rfl, rfl⟩

/-- C9: evaluation of the import pipeline.  `create_database_schema` alone
does build the claimed schema, but the subsequent
`to_sql(..., if_exists="replace")` calls drop and recreate both tables from
the data frames, so the persisted store ends up without the `created_at` and
autoincrement-`id` columns, without primary or foreign keys, and with all
four indexes dropped. -/
theorem c9_schema_destroyed_by_replace :
    ¬ specSchemaOK importedDatabase ∧
    specSchemaOK (create_database_schema emptyDb) ∧
    lookupTable importedDatabase "games"
      = some { columns := [⟨"appid", "INTEGER", false, false, false, false⟩,
                           ⟨"game_name", "TEXT", false, false, false, false⟩],
               foreignKeys := [] } ∧
    lookupTable importedDatabase "player_history"
      = some { columns := [⟨"appid", "INTEGER", false, false, false, false⟩,
                           ⟨"month", "TEXT", false, false, false, false⟩,
                           ⟨"avg_players", "REAL", false, false, false, false⟩,
                           ⟨"peak_players", "INTEGER", false, false, false, false⟩,
                           ⟨"year", "INTEGER", false, false, false, false⟩,
                           ⟨"month_num", "INTEGER", false, false, false, false⟩],
               foreignKeys := [] } ∧
    importedDatabase.indexes = [] := by
  refine ⟨by decide, by decide, by decide, by decide, by decide⟩

end LoaderClaims

end CsvToSqlite
